import Mathlib

/-!
# EcoScout front end: the upload / detect / history controller

A shallow embedding of `frontend/src/App.js`.  The React component keeps seven
state slots (`useState`), two handlers (`handleFileSelect`, `handleUpload`) and
a render function.  The slots become the fields of `AppState`, each `setX(v)`
becomes a record update, and the single `await` of `handleUpload` splits the
handler into the part that runs before the request is issued
(`handleUploadStart`) and the continuation that runs when the promise settles
(`handleUploadSettle`).
-/

namespace EcoScout

/-! ## JavaScript numbers -/

/-- A finite JavaScript number, written `(-1)^neg * mant * 2^exp`.  Every
finite binary64 value has this form; `NaN` and the infinities are not
represented. -/
structure Num where
  neg : Bool
  mant : Nat
  exp : Int
  deriving DecidableEq, Repr

/-- The rational a `Num` denotes. -/
def Num.toRat (x : Num) : ℚ :=
  (if x.neg then -1 else 1) * (x.mant : ℚ) * (2 : ℚ) ^ x.exp

/-- Helper of `log2`: halve until below 2, counting the steps. -/
def log2Fuel : Nat → Nat → Nat
  | 0, _ => 0
  | fuel + 1, n => if n < 2 then 0 else log2Fuel fuel (n / 2) + 1

/-- Position of the leading bit: `floor (log2 n)` for `n > 0`. -/
def log2 (n : Nat) : Nat := log2Fuel n n

/-- The binary exponent `floor (log2 (n / d))` of a positive fraction. -/
def log2Floor (n d : Nat) : Int :=
  let e0 : Int := (log2 n : Int) - (log2 d : Int)
  if 0 ≤ e0 then
    if d * 2 ^ e0.toNat ≤ n then e0 else e0 - 1
  else
    if d ≤ n * 2 ^ (-e0).toNat then e0 else e0 - 1

/-- The integer nearest to `n / d`, a tie going to the even neighbour (the
IEEE 754 default rounding direction). -/
def roundTiesEven (n d : Nat) : Nat :=
  let q := n / d
  let r := n % d
  if 2 * r < d then q
  else if d < 2 * r then q + 1
  else if q % 2 = 0 then q else q + 1

/-- Rounding of the exact fraction `n / d` to binary64: a 53-bit significand
at the exponent of the fraction (never below the subnormal exponent `-1074`),
returned as `(m, p)` for the value `m * 2^p`; `none` when the rounded value
reaches `2^1024`, which a double holds as `Infinity`. -/
def roundBinary64 (n d : Nat) : Option (Nat × Int) :=
  if n = 0 then some (0, 0)
  else
    let p : Int := max (log2Floor n d) (-1022) - 52
    let m := if 0 ≤ p then roundTiesEven n (d * 2 ^ p.toNat)
             else roundTiesEven (n * 2 ^ (-p).toNat) d
    if 0 ≤ p ∧ 2 ^ 1024 ≤ m * 2 ^ p.toNat then none else some (m, p)

/-- The double that a non-negative decimal literal `n / d` of a JSON body
parses to. -/
def ofDecimal (n d : Nat) : Option Num :=
  (roundBinary64 n d).map fun r => { neg := false, mant := r.1, exp := r.2 }

/-- The operator `a * b` on numbers: the exact product rounded to binary64
(`none` for an overflow to an infinity). -/
def jsMul (a b : Num) : Option Num :=
  let e := a.exp + b.exp
  let r := if 0 ≤ e then roundBinary64 (a.mant * b.mant * 2 ^ e.toNat) 1
           else roundBinary64 (a.mant * b.mant) (2 ^ (-e).toNat)
  r.map fun r => { neg := xor a.neg b.neg, mant := r.1, exp := r.2 }

/-- The literal `100`. -/
def hundred : Num := { neg := false, mant := 100, exp := 0 }

/-- The integer `n` of `Number.prototype.toFixed` for one fraction digit, on
the magnitude of `x`: the `n` for which `n / 10 - |x|` is as close to zero as
possible, the larger `n` when there are two.  That is `floor (10 |x| + 1/2)`. -/
def tenths (x : Num) : Nat :=
  if 0 ≤ x.exp then 10 * x.mant * 2 ^ x.exp.toNat
  else (20 * x.mant + 2 ^ (-x.exp).toNat) / 2 ^ ((-x.exp).toNat + 1)

/-- The test `|x| >= 10^21`, above which `toFixed` switches to the
exponential form of `ToString`. -/
def atLeast1e21 (x : Num) : Bool :=
  if 0 ≤ x.exp then decide (10 ^ 21 ≤ x.mant * 2 ^ x.exp.toNat)
  else decide (10 ^ 21 * 2 ^ (-x.exp).toNat ≤ x.mant)

/-- `x.toFixed(1)` for a finite `x` below `10^21` in magnitude (`none` above):
a minus sign when `x < 0`, the decimal digits of `n = tenths x` padded to at
least two digits, and a point before the last digit. -/
def toFixed1 (x : Num) : Option String :=
  if atLeast1e21 x then none
  else
    let n := tenths x
    let body := toString (n / 10) ++ "." ++ toString (n % 10)
    some (if x.neg ∧ x.mant ≠ 0 then "-" ++ body else body)

/-! ## JavaScript values -/

/-- A JavaScript value as it can arrive in `response.data`: the result of
parsing a JSON body, plus `undefined`.  An object is its list of own
properties, looked up from the front. -/
inductive JsVal where
  | undefined : JsVal
  | null : JsVal
  | bool (b : Bool) : JsVal
  | num (x : Num) : JsVal
  | str (s : String) : JsVal
  | arr (items : List JsVal) : JsVal
  | obj (fields : List (String × JsVal)) : JsVal

namespace JsVal

/-- Property read `v.key` for a key that no prototype defines (such as
`status` or `confidence`): reading from `null` or `undefined` throws a
`TypeError` (`none`), any primitive or array yields `undefined`, an object
yields its own property or `undefined`. -/
def getProp (v : JsVal) (key : String) : Option JsVal :=
  match v with
  | .undefined => none
  | .null => none
  | .bool _ => some .undefined
  | .num _ => some .undefined
  | .str _ => some .undefined
  | .arr _ => some .undefined
  | .obj fields =>
    match fields.lookup key with
    | some x => some x
    | none => some .undefined

/-- Strict equality `v === "lit"` against a string literal. -/
def strictEqStr (v : JsVal) (lit : String) : Bool :=
  match v with
  | .str s => s == lit
  | _ => false

/-- The test `v === null`. -/
def isNull (v : JsVal) : Bool :=
  match v with
  | .null => true
  | _ => false

end JsVal

/-! ## Component state -/

/-- The three values `activeTab` ever takes: `'upload'`, `'results'`,
`'dashboard'` (the initial value and the three `setActiveTab` literals). -/
inductive Tab where
  | upload
  | results
  | dashboard
  deriving DecidableEq, Repr

/-- A `File` object chosen in the file input; the component never inspects
it, it is only appended to the form data. -/
structure File where
  name : String
  deriving DecidableEq, Repr

/-- The seven `useState` slots of `App` (lines 19-25). -/
structure AppState where
  activeTab : Tab
  file : Option File
  preview : Option String
  loading : Bool
  result : JsVal
  error : Option String
  history : List JsVal

/-- The initial values given to `useState` (lines 19-25). -/
def AppState.init : AppState :=
  { activeTab := .upload
    file := none
    preview := none
    loading := false
    result := .null
    error := none
    history := [] }

/-- The message of line 54. -/
def noPlateMessage : String := "No license plate detected in this image."

/-- The message of line 63. -/
def serverErrorMessage : String := "Server error. Is the backend running?"

/-! ## Handlers -/

/-- Lines 29-37.  `selected` is `e.target.files[0]` (`none` when the list is
empty) and `url` is the value returned by `URL.createObjectURL(selected)`. -/
def handleFileSelect (selected : Option File) (url : String) (s : AppState) : AppState :=
  match selected with
  | some f => { s with file := some f, preview := some url, result := .null, error := none }
  | none => s

/-- Sidebar buttons (lines 89, 95, 101): `setActiveTab(t)`. -/
def setActiveTab (t : Tab) (s : AppState) : AppState :=
  { s with activeTab := t }

/-- How the promise returned by `axios.post` settles: fulfilled with a
response whose `data` is the parsed body, or rejected (timeout, connection
refused, non-2xx status). -/
inductive Outcome where
  | response (data : JsVal)
  | rejected

/-- Lines 40-46 of `handleUpload`, up to the `await`: `none` when the guard
`if (!file) return;` fires, otherwise the state after `setLoading(true)` and
`setError(null)`, at which point one request has been issued. -/
def handleUploadStart (s : AppState) : Option AppState :=
  match s.file with
  | none => none
  | some _ => some { s with loading := true, error := none }

/-- Lines 53-60 and 63: the body of the `try` after the `await`, with the
`catch` block.  Reading `response.data.status` on a `null` body throws inside
the `try`, which lands in the `catch` like a rejected request. -/
def handleUploadBody (o : Outcome) (s : AppState) : AppState :=
  match o with
  | .rejected => { s with error := some serverErrorMessage }
  | .response data =>
    match data.getProp "status" with
    | none => { s with error := some serverErrorMessage }
    | some st =>
      if st.strictEqStr "Failed" then
        { s with error := some noPlateMessage }
      else
        { s with result := data, history := data :: s.history, activeTab := .results }

/-- Lines 48-66: the continuation of `handleUpload` once the promise has
settled, ending with the `finally` block `setLoading(false)`. -/
def handleUploadSettle (o : Outcome) (s : AppState) : AppState :=
  { handleUploadBody o s with loading := false }

/-- A whole `handleUpload` call (lines 39-67) during which nothing else
happens: the request is issued and settles with `o`. -/
def handleUpload (o : Outcome) (s : AppState) : AppState :=
  match handleUploadStart s with
  | none => s
  | some s1 => handleUploadSettle o s1

/-- The `disabled` attribute of the submit button (line 151). -/
def submitDisabled (s : AppState) : Bool :=
  s.file.isNone || s.loading

/-! ## Rendering of the confidence -/

/-- Line 180, the latest-result card: the template literal
`(result.confidence * 100).toFixed(1)` followed by `%`.  Only a numeric
`confidence` is modelled (`none` otherwise). -/
def cardConfidence (result : JsVal) : Option String :=
  match result.getProp "confidence" with
  | some (.num c) =>
    match jsMul c hundred with
    | some p => (toFixed1 p).map fun t => t ++ "%"
    | none => none
  | _ => none

/-- Line 206, one row of the history table: the text
`(item.confidence * 100).toFixed(1)` followed by the text `%`. -/
def rowConfidence (item : JsVal) : Option String :=
  match item.getProp "confidence" with
  | some (.num c) =>
    match jsMul c hundred with
    | some p => (toFixed1 p).map fun t => t ++ "%"
    | none => none
  | _ => none

/-- The confidence column of the history table (lines 203-211). -/
def historyConfidences (s : AppState) : List (Option String) :=
  s.history.map rowConfidence

/-! ## The running application -/

/-- The component state together with the number of `axios.post` promises
that have been issued and have not settled yet. -/
structure World where
  app : AppState
  inFlight : Nat

/-- The freshly mounted component. -/
def World.init : World := { app := AppState.init, inFlight := 0 }

/-- What can happen to the running component. -/
inductive Event where
  /-- The file input fires `onChange` (line 133). -/
  | fileSelect (selected : Option File) (url : String)
  /-- A sidebar item is clicked. -/
  | navigate (t : Tab)
  /-- The submit button is clicked (lines 149-151). -/
  | clickSubmit
  /-- The function `handleUpload` is invoked without going through the
  button.  The component has no such call site; the event only widens the
  set of runs over which the history invariants are proved. -/
  | callUpload
  /-- The oldest outstanding request settles. -/
  | settle (o : Outcome)

/-- An invocation of `handleUpload` up to its `await`: past the guard one
more request is outstanding. -/
def invokeUpload (w : World) : World :=
  match handleUploadStart w.app with
  | none => w
  | some s1 => { app := s1, inFlight := w.inFlight + 1 }

/-- A click on the submit button: a disabled button does not fire
`onClick`, an enabled one runs `handleUpload`. -/
def clickSubmit (w : World) : World :=
  if submitDisabled w.app then w else invokeUpload w

/-- One event applied to the running component.  A settlement needs an
outstanding request. -/
def step (e : Event) (w : World) : World :=
  match e with
  | .fileSelect selected url => { w with app := handleFileSelect selected url w.app }
  | .navigate t => { w with app := setActiveTab t w.app }
  | .clickSubmit => clickSubmit w
  | .callUpload => invokeUpload w
  | .settle o =>
    if w.inFlight = 0 then w
    else { app := handleUploadSettle o w.app, inFlight := w.inFlight - 1 }

/-- A sequence of events applied in order. -/
def run (es : List Event) (w : World) : World :=
  es.foldl (fun acc e => step e acc) w

/-- Events a user and the network can produce: everything except a direct
call of `handleUpload`. -/
def Event.fromUi : Event → Bool
  | .callUpload => false
  | _ => true

/-! ## The request state of the specification -/

/-- The four request states the specification names. -/
inductive RequestState where
  | idle
  | inFlight
  | succeeded
  | failed
  deriving DecidableEq, Repr

/-- The request state of the specification, read off the component state the
way the specification describes the four states: in flight while `loading`;
otherwise failed when an error message is set, succeeded when a result is set
and no error is, idle when neither is set. -/
def requestState (s : AppState) : RequestState :=
  if s.loading then .inFlight
  else if s.error.isSome then .failed
  else if s.result.isNull then .idle
  else .succeeded


/-! ## Sample inputs -/

/-- The double that the literal `0.88` parses to. -/
def confidence88 : Num := { neg := false, mant := 7926335344172073, exp := -53 }

/-- A chosen image. -/
def sampleFile : File := { name := "car.jpg" }

/-- The state after choosing `sampleFile` in the freshly mounted component. -/
def readyState : AppState :=
  handleFileSelect (some sampleFile) "blob:car" AppState.init

/-- The body `{status:"OK", plate_number:"ABC123", confidence:0.88,
timestamp:"2024-01-01T10:00:00Z", preview_image:"http://x/1.jpg"}`; the
number is the double the literal `0.88` parses to. -/
def recordABC : JsVal :=
  .obj [("status", .str "OK"), ("plate_number", .str "ABC123"),
        ("confidence", .num confidence88),
        ("timestamp", .str "2024-01-01T10:00:00Z"),
        ("preview_image", .str "http://x/1.jpg")]

/-- A second successful body, for another plate. -/
def recordXYZ : JsVal :=
  .obj [("status", .str "OK"), ("plate_number", .str "XYZ789"),
        ("confidence", .num { neg := false, mant := 1, exp := -1 }),
        ("timestamp", .str "2024-01-01T10:05:00Z"),
        ("preview_image", .str "http://x/2.jpg")]

/-- The body `{status: "Failed"}`. -/
def failedBody : JsVal := .obj [("status", .str "Failed")]

/-- The component while the request for `sampleFile` is outstanding. -/
def busyWorld : World :=
  run [.fileSelect (some sampleFile) "blob:car", .clickSubmit] World.init

/-- The double that the literal `0.0015` parses to. -/
def lowConfidence : Num := { neg := false, mant := 6917529027641082, exp := -62 }

/-! ## Invariants -/

/-- The latest result, when there is one, heads the history. -/
def LatestHeadsHistory (s : AppState) : Prop :=
  s.result.isNull = false → s.history.head? = some s.result

/-- With only user and network events, a request is outstanding exactly
while `loading` is set, and then there is one. -/
def OneRequest (w : World) : Prop :=
  w.inFlight = if w.app.loading then 1 else 0

/-! ## Facts about the number model -/

theorem log2Fuel_spec (fuel n : Nat) (hle : n ≤ fuel) (hn : n ≠ 0) :
    2 ^ log2Fuel fuel n ≤ n ∧ n < 2 ^ (log2Fuel fuel n + 1) := by
  induction fuel generalizing n with
  | zero => omega
  | succ fuel ih =>
    unfold log2Fuel
    split
    · constructor <;> simp <;> omega
    · rename_i h2
      have hhalf : n / 2 ≤ fuel := by omega
      have hne : n / 2 ≠ 0 := by omega
      obtain ⟨h1, h3⟩ := ih (n / 2) hhalf hne
      constructor
      · rw [pow_succ]; omega
      · rw [pow_succ]; omega

theorem log2_spec (n : Nat) (hn : n ≠ 0) : 2 ^ log2 n ≤ n ∧ n < 2 ^ (log2 n + 1) :=
  log2Fuel_spec n n (le_refl n) hn

theorem log2Floor_le (n d k : Nat) (hn : n ≠ 0) (hd : d ≠ 0) (h : n ≤ 2 ^ k * d) :
    log2Floor n d ≤ k := by
  have h1 := (log2_spec n hn).1
  have h2 := (log2_spec d hd).2
  have h3 : 2 ^ log2 n < 2 ^ (k + (log2 d + 1)) := by
    calc 2 ^ log2 n ≤ n := h1
      _ ≤ 2 ^ k * d := h
      _ < 2 ^ k * 2 ^ (log2 d + 1) := Nat.mul_lt_mul_of_pos_left h2 (by positivity)
      _ = 2 ^ (k + (log2 d + 1)) := (pow_add 2 k (log2 d + 1)).symm
  have h4 : log2 n < k + (log2 d + 1) := (Nat.pow_lt_pow_iff_right (by norm_num)).1 h3
  unfold log2Floor
  simp only
  split <;> split <;> omega

theorem roundTiesEven_err (n d : Nat) (hd : 0 < d) :
    2 * roundTiesEven n d * d ≤ 2 * n + d ∧ 2 * n ≤ 2 * roundTiesEven n d * d + d := by
  have hdm := Nat.div_add_mod n d
  have hlt := Nat.mod_lt n hd
  have hmul : (n / d + 1) * d = d * (n / d) + d := by ring
  have hmul2 : (n / d) * d = d * (n / d) := by ring
  unfold roundTiesEven
  simp only
  split
  · rw [Nat.mul_assoc, hmul2]; omega
  · split
    · rw [Nat.mul_assoc, hmul]; omega
    · split
      · rw [Nat.mul_assoc, hmul2]; omega
      · rw [Nat.mul_assoc, hmul]; omega


theorem roundBinary64_small (n d : Nat) (hn : n ≠ 0) (hd : d ≠ 0) (h : n ≤ 128 * d) :
    ∃ m k : Nat, roundBinary64 n d = some (m, -(k : Int)) ∧ 45 ≤ k ∧
      2 * m * d ≤ 2 * (n * 2 ^ k) + d ∧ 2 * (n * 2 ^ k) ≤ 2 * m * d + d := by
  have hlf : log2Floor n d ≤ 7 := by
    have := log2Floor_le n d 7 hn hd (by norm_num; exact h)
    exact_mod_cast this
  have hmax : max (log2Floor n d) (-1022) ≤ 7 := max_le hlf (by norm_num)
  have hp : ¬ (0 ≤ max (log2Floor n d) (-1022) - 52) := by omega
  have herr := roundTiesEven_err (n * 2 ^ (-(max (log2Floor n d) (-1022) - 52)).toNat) d
    (Nat.pos_of_ne_zero hd)
  refine ⟨roundTiesEven (n * 2 ^ (-(max (log2Floor n d) (-1022) - 52)).toNat) d,
    (-(max (log2Floor n d) (-1022) - 52)).toNat, ?_, by omega, herr.1, herr.2⟩
  unfold roundBinary64
  simp only [hn, if_false, hp, false_and]
  congr 2
  omega

theorem Num.toRat_of_neg_exp (m k : Nat) :
    Num.toRat { neg := false, mant := m, exp := -(k : Int) } = (m : ℚ) / 2 ^ k := by
  simp [Num.toRat, zpow_neg, div_eq_mul_inv]

theorem Num.toRat_of_exp (x : Num) (hneg : x.neg = false) :
    (0 ≤ x.exp → x.toRat = (x.mant : ℚ) * 2 ^ x.exp.toNat) ∧
    (x.exp < 0 → x.toRat = (x.mant : ℚ) / 2 ^ (-x.exp).toNat) := by
  obtain ⟨neg, mant, exp⟩ := x
  simp only at hneg
  subst hneg
  constructor
  · intro h
    obtain ⟨k, hk⟩ := Int.eq_ofNat_of_zero_le h
    simp only at hk
    subst hk
    simp [Num.toRat]
  · intro h
    obtain ⟨k, hk⟩ := Int.eq_ofNat_of_zero_le (by simp only at h; omega : 0 ≤ -exp)
    have hexp : exp = -(k : Int) := by omega
    subst hexp
    simp [Num.toRat, zpow_neg, div_eq_mul_inv]


theorem abs_round_err (m n d k : Nat) (hd : 0 < d)
    (h1 : 2 * m * d ≤ 2 * (n * 2 ^ k) + d) (h2 : 2 * (n * 2 ^ k) ≤ 2 * m * d + d) :
    |(m : ℚ) / 2 ^ k - (n : ℚ) / d| ≤ 1 / 2 ^ (k + 1) := by
  have hD : (0 : ℚ) < d := by exact_mod_cast hd
  have hP : (0 : ℚ) < 2 ^ k := by positivity
  have q1 : (2 * m * d : ℚ) ≤ 2 * (n * 2 ^ k) + d := by exact_mod_cast h1
  have q2 : (2 * (n * 2 ^ k) : ℚ) ≤ 2 * m * d + d := by exact_mod_cast h2
  have hrw : (m : ℚ) / 2 ^ k - (n : ℚ) / d = (2 * m * d - 2 * (n * 2 ^ k)) / (2 ^ (k + 1) * d) := by
    field_simp
    ring
  have hrw2 : (1 : ℚ) / 2 ^ (k + 1) = d / (2 ^ (k + 1) * d) := by
    field_simp
  rw [hrw, hrw2, abs_le]
  have hden : (0 : ℚ) < 2 ^ (k + 1) * d := by positivity
  constructor
  · rw [← neg_div, div_le_div_iff_of_pos_right hden]; linarith
  · rw [div_le_div_iff_of_pos_right hden]; linarith

theorem jsMul_hundred (c : Num) (hneg : c.neg = false) (hm : c.mant ≠ 0)
    (hle : c.toRat ≤ 1) :
    ∃ m k : Nat, jsMul c hundred = some { neg := false, mant := m, exp := -(k : Int) } ∧
      45 ≤ k ∧ |(m : ℚ) / 2 ^ k - c.toRat * 100| ≤ 1 / 2 ^ (k + 1) ∧ m ≤ 100 * 2 ^ k := by
  have hbound : ∀ (m n d k : Nat), 0 < d → n ≤ 100 * d →
      2 * m * d ≤ 2 * (n * 2 ^ k) + d → m ≤ 100 * 2 ^ k := by
    intro m n d k hd hn h1
    by_contra hcon
    have hm1 : 100 * 2 ^ k + 1 ≤ m := by omega
    have : 2 * (100 * 2 ^ k + 1) * d ≤ 2 * m * d :=
      Nat.mul_le_mul_right d (Nat.mul_le_mul_left 2 hm1)
    have h3 : 2 * (n * 2 ^ k) ≤ 2 * (100 * d * 2 ^ k) :=
      Nat.mul_le_mul_left 2 (Nat.mul_le_mul_right _ hn)
    have e1 : 2 * (100 * 2 ^ k + 1) * d = 2 * (100 * d * 2 ^ k) + 2 * d := by ring
    omega
  obtain ⟨h0, h1⟩ := Num.toRat_of_exp c hneg
  by_cases hexp : 0 ≤ c.exp
  · have hval := h0 hexp
    have hN : c.mant * 2 ^ c.exp.toNat ≤ 1 := by
      have : (c.mant : ℚ) * 2 ^ c.exp.toNat ≤ 1 := by rw [← hval]; exact hle
      exact_mod_cast this
    have hpos : c.mant * 2 ^ c.exp.toNat ≠ 0 := by positivity
    have hNne : c.mant * 100 * 2 ^ c.exp.toNat ≠ 0 := by positivity
    have hNle : c.mant * 100 * 2 ^ c.exp.toNat ≤ 100 * 1 := by
      have : c.mant * 100 * 2 ^ c.exp.toNat = 100 * (c.mant * 2 ^ c.exp.toNat) := by ring
      omega
    obtain ⟨m, k, hr, hk, e1, e2⟩ :=
      roundBinary64_small (c.mant * 100 * 2 ^ c.exp.toNat) 1 hNne (by norm_num) (by omega)
    refine ⟨m, k, ?_, hk, ?_, hbound m _ 1 k (by norm_num) hNle e1⟩
    · simp [jsMul, hundred, hexp, hr, hneg]
    · have := abs_round_err m _ 1 k (by norm_num) e1 e2
      rw [hval]
      push_cast at this ⊢
      rw [div_one] at this
      rw [show (c.mant : ℚ) * 2 ^ c.exp.toNat * 100 = c.mant * 100 * 2 ^ c.exp.toNat by ring]
      exact this
  · have hlt : c.exp < 0 := by omega
    have hval := h1 hlt
    have hP : (0 : ℚ) < 2 ^ (-c.exp).toNat := by positivity
    have hN : c.mant ≤ 2 ^ (-c.exp).toNat := by
      have : (c.mant : ℚ) ≤ 2 ^ (-c.exp).toNat := by
        rw [hval, div_le_one hP] at hle; exact hle
      exact_mod_cast this
    have hNne : c.mant * 100 ≠ 0 := by positivity
    have hDne : 2 ^ (-c.exp).toNat ≠ 0 := by positivity
    obtain ⟨m, k, hr, hk, e1, e2⟩ :=
      roundBinary64_small (c.mant * 100) (2 ^ (-c.exp).toNat) hNne hDne (by omega)
    refine ⟨m, k, ?_, hk, ?_,
      hbound m _ _ k (Nat.pos_of_ne_zero hDne) (by omega) e1⟩
    · simp [jsMul, hundred, hexp, hr, hneg]
    · have := abs_round_err m _ _ k (Nat.pos_of_ne_zero hDne) e1 e2
      rw [hval]
      push_cast at this ⊢
      rw [show (c.mant : ℚ) / 2 ^ (-c.exp).toNat * 100 = c.mant * 100 / 2 ^ (-c.exp).toNat by ring]
      exact this


theorem toFixed1_small (m k : Nat) (hk : 1 ≤ k) (hm : m ≤ 100 * 2 ^ k) :
    ∃ t : Nat, t ≤ 1000 ∧
      toFixed1 { neg := false, mant := m, exp := -(k : Int) }
        = some (toString (t / 10) ++ "." ++ toString (t % 10)) ∧
      (t : ℚ) / 10 - 1 / 20 ≤ (m : ℚ) / 2 ^ k ∧ (m : ℚ) / 2 ^ k < (t : ℚ) / 10 + 1 / 20 := by
  have hP : 0 < 2 ^ (k + 1) := by positivity
  have hneg : ¬ (0 ≤ -(k : Int)) := by omega
  have htn : tenths { neg := false, mant := m, exp := -(k : Int) }
      = (20 * m + 2 ^ k) / 2 ^ (k + 1) := by
    simp [tenths, hneg]
  have hbig : atLeast1e21 { neg := false, mant := m, exp := -(k : Int) } = false := by
    simp only [atLeast1e21, hneg, if_false, neg_neg, Int.toNat_ofNat, decide_eq_false_iff_not,
      not_le]
    have : 0 < 2 ^ k := by positivity
    have e : 100 * 2 ^ k < 10 ^ 21 * 2 ^ k := Nat.mul_lt_mul_of_pos_right (by norm_num) this
    omega
  have hlo : (20 * m + 2 ^ k) / 2 ^ (k + 1) * 2 ^ (k + 1) ≤ 20 * m + 2 ^ k :=
    Nat.div_mul_le_self _ _
  have hhi : 20 * m + 2 ^ k < ((20 * m + 2 ^ k) / 2 ^ (k + 1) + 1) * 2 ^ (k + 1) := by
    have := Nat.div_add_mod (20 * m + 2 ^ k) (2 ^ (k + 1))
    have := Nat.mod_lt (20 * m + 2 ^ k) hP
    have e : ((20 * m + 2 ^ k) / 2 ^ (k + 1) + 1) * 2 ^ (k + 1)
        = 2 ^ (k + 1) * ((20 * m + 2 ^ k) / 2 ^ (k + 1)) + 2 ^ (k + 1) := by ring
    omega
  have hsmall : (20 * m + 2 ^ k) / 2 ^ (k + 1) ≤ 1000 := by
    have h2 : 20 * m + 2 ^ k < 1001 * 2 ^ (k + 1) := by
      rw [pow_succ]
      have : 0 < 2 ^ k := by positivity
      omega
    exact Nat.lt_succ_iff.1 ((Nat.div_lt_iff_lt_mul hP).2 h2)
  generalize (20 * m + 2 ^ k) / 2 ^ (k + 1) = t at htn hlo hhi hsmall
  have hPq : (0 : ℚ) < 2 ^ k := by positivity
  have q1 : (t : ℚ) * (2 ^ k * 2) ≤ 20 * m + 2 ^ k := by
    rw [pow_succ] at hlo
    exact_mod_cast hlo
  have q2 : (20 * m + 2 ^ k : ℚ) < ((t : ℚ) + 1) * (2 ^ k * 2) := by
    rw [pow_succ] at hhi
    exact_mod_cast hhi
  refine ⟨t, hsmall, ?_, ?_, ?_⟩
  · simp [toFixed1, hbig, htn]
  · rw [le_div_iff₀ hPq]
    nlinarith
  · rw [div_lt_iff₀ hPq]
    nlinarith

theorem jsMul_hundred_zero (c : Num) (hm : c.mant = 0) :
    jsMul c hundred = some { neg := c.neg, mant := 0, exp := 0 } := by
  simp [jsMul, hundred, roundBinary64, hm]

theorem toFixed1_zero (b : Bool) :
    toFixed1 { neg := b, mant := 0, exp := 0 } = some "0.0" := by
  cases b <;> decide

theorem percent_of_unit (c : Num) (h0 : 0 ≤ c.toRat) (hle : c.toRat ≤ 1) :
    ∃ (p : Num) (t : Nat), jsMul c hundred = some p ∧
      |p.toRat - c.toRat * 100| ≤ 1 / 2 ^ 46 ∧
      (t : ℚ) / 10 - 1 / 20 ≤ p.toRat ∧ p.toRat < (t : ℚ) / 10 + 1 / 20 ∧ t ≤ 1000 ∧
      toFixed1 p = some (toString (t / 10) ++ "." ++ toString (t % 10)) := by
  by_cases hm : c.mant = 0
  · have hc : c.toRat = 0 := by simp [Num.toRat, hm]
    refine ⟨_, 0, jsMul_hundred_zero c hm, ?_, ?_, ?_, by norm_num, toFixed1_zero c.neg⟩
    · rw [hc]; simp [Num.toRat]
    · simp [Num.toRat]
    · simp [Num.toRat]
  · have hneg : c.neg = false := by
      cases hb : c.neg with
      | false => rfl
      | true =>
        exfalso
        have hpos : (0 : ℚ) < (c.mant : ℚ) * (2 : ℚ) ^ c.exp := by
          have : (0 : ℚ) < c.mant := by exact_mod_cast Nat.pos_of_ne_zero hm
          positivity
        have : c.toRat = -((c.mant : ℚ) * (2 : ℚ) ^ c.exp) := by
          simp [Num.toRat, hb]
        linarith
    obtain ⟨m, k, hmul, hk, herr, hmle⟩ := jsMul_hundred c hneg hm hle
    obtain ⟨t, ht, hfix, hlo, hhi⟩ := toFixed1_small m k (by omega) hmle
    refine ⟨_, t, hmul, ?_, ?_, ?_, ht, hfix⟩
    · rw [Num.toRat_of_neg_exp]
      refine le_trans herr ?_
      apply one_div_le_one_div_of_le (by positivity)
      exact pow_le_pow_right₀ (by norm_num) (by omega)
    · rw [Num.toRat_of_neg_exp]; exact hlo
    · rw [Num.toRat_of_neg_exp]; exact hhi

/-! ## Basic facts about the handlers -/

theorem start_of_file (s : AppState) (f : File) (h : s.file = some f) :
    handleUploadStart s = some { s with loading := true, error := none } := by
  simp [handleUploadStart, h]

theorem handleUpload_of_file (o : Outcome) (s : AppState) (f : File) (h : s.file = some f) :
    handleUpload o s = handleUploadSettle o { s with loading := true, error := none } := by
  simp [handleUpload, start_of_file s f h]

theorem settle_accept (s : AppState) (d st : JsVal)
    (hst : d.getProp "status" = some st) (hok : st.strictEqStr "Failed" = false) :
    handleUploadSettle (.response d) s =
      { s with result := d, history := d :: s.history, activeTab := .results, loading := false } := by
  simp [handleUploadSettle, handleUploadBody, hst, hok]

theorem settle_failed (s : AppState) (d st : JsVal)
    (hst : d.getProp "status" = some st) (hbad : st.strictEqStr "Failed" = true) :
    handleUploadSettle (.response d) s =
      { s with error := some noPlateMessage, loading := false } := by
  simp [handleUploadSettle, handleUploadBody, hst, hbad]

theorem settle_throw (s : AppState) (d : JsVal) (hst : d.getProp "status" = none) :
    handleUploadSettle (.response d) s =
      { s with error := some serverErrorMessage, loading := false } := by
  simp [handleUploadSettle, handleUploadBody, hst]

theorem settle_rejected (s : AppState) :
    handleUploadSettle .rejected s =
      { s with error := some serverErrorMessage, loading := false } := by
  simp [handleUploadSettle, handleUploadBody]

theorem getProp_some_not_null (d st : JsVal) (key : String)
    (h : d.getProp key = some st) : d.isNull = false := by
  cases d <;> simp_all [JsVal.getProp, JsVal.isNull]

theorem getProp_none_iff (d : JsVal) (key : String) :
    d.getProp key = none ↔ d = .null ∨ d = .undefined := by
  cases d with
  | obj fields =>
    simp only [JsVal.getProp]
    cases fields.lookup key <;> simp
  | _ => simp [JsVal.getProp]

theorem invokeUpload_history (w : World) :
    (invokeUpload w).app.history = w.app.history := by
  unfold invokeUpload handleUploadStart
  cases w.app.file <;> rfl

theorem invokeUpload_result (w : World) :
    (invokeUpload w).app.result = w.app.result := by
  unfold invokeUpload handleUploadStart
  cases w.app.file <;> rfl

/-- Every event keeps the records already in the history, in place, as the
tail of the new history. -/
theorem step_history_suffix (e : Event) (w : World) :
    w.app.history <:+ (step e w).app.history := by
  cases e with
  | fileSelect selected url =>
    cases selected <;> simp [step, handleFileSelect]
  | navigate t => simp [step, setActiveTab]
  | clickSubmit =>
    simp only [step, clickSubmit]
    split
    · simp
    · simp [invokeUpload_history]
  | callUpload => simp [step, invokeUpload_history]
  | settle o =>
    simp only [step]
    split
    · simp
    · cases o with
      | rejected => simp [settle_rejected]
      | response d =>
        cases hst : d.getProp "status" with
        | none => simp [settle_throw _ _ hst]
        | some st =>
          cases hok : st.strictEqStr "Failed" with
          | true => simp [settle_failed _ _ _ hst hok]
          | false => simp [settle_accept _ _ _ hst hok]

theorem run_history_suffix (es : List Event) (w : World) :
    w.app.history <:+ (run es w).app.history := by
  induction es generalizing w with
  | nil => simp [run]
  | cons e es ih =>
    have h1 := step_history_suffix e w
    have h2 := ih (step e w)
    simp only [run, List.foldl_cons] at h2 ⊢
    exact h1.trans h2

theorem step_latest (e : Event) (w : World) (h : LatestHeadsHistory w.app) :
    LatestHeadsHistory (step e w).app := by
  unfold LatestHeadsHistory at h ⊢
  cases e with
  | fileSelect selected url =>
    cases selected with
    | none => simpa [step, handleFileSelect] using h
    | some f => simp [step, handleFileSelect, JsVal.isNull]
  | navigate t => simpa [step, setActiveTab] using h
  | clickSubmit =>
    simp only [step, clickSubmit]
    split
    · exact h
    · simpa [invokeUpload_history, invokeUpload_result] using h
  | callUpload => simpa [step, invokeUpload_history, invokeUpload_result] using h
  | settle o =>
    simp only [step]
    split
    · exact h
    · cases o with
      | rejected => simpa [settle_rejected] using h
      | response d =>
        cases hst : d.getProp "status" with
        | none => simpa [settle_throw _ _ hst] using h
        | some st =>
          cases hok : st.strictEqStr "Failed" with
          | true => simpa [settle_failed _ _ _ hst hok] using h
          | false => simp [settle_accept _ _ _ hst hok]

theorem run_latest (es : List Event) (w : World) (h : LatestHeadsHistory w.app) :
    LatestHeadsHistory (run es w).app := by
  induction es generalizing w with
  | nil => simpa [run] using h
  | cons e es ih =>
    have h2 := ih (step e w) (step_latest e w h)
    simpa only [run, List.foldl_cons] using h2

theorem step_oneRequest (e : Event) (w : World) (hui : e.fromUi = true)
    (h : OneRequest w) : OneRequest (step e w) := by
  unfold OneRequest at h ⊢
  cases e with
  | fileSelect selected url =>
    cases selected <;> simpa [step, handleFileSelect] using h
  | navigate t => simpa [step, setActiveTab] using h
  | clickSubmit =>
    simp only [step, clickSubmit]
    split
    · exact h
    · rename_i hd
      simp only [submitDisabled, Bool.or_eq_true, not_or, Bool.not_eq_true] at hd
      obtain ⟨hf, hl⟩ := hd
      cases hfile : w.app.file with
      | none => simp [hfile] at hf
      | some f =>
        rw [hl] at h
        simp [invokeUpload, handleUploadStart, hfile, h]
  | callUpload => simp [Event.fromUi] at hui
  | settle o =>
    simp only [step]
    split
    · exact h
    · rename_i hpos
      cases hl : w.app.loading with
      | false => rw [hl] at h; simp at h; exact absurd h hpos
      | true =>
        rw [hl] at h
        simp only [if_true] at h
        simp [handleUploadSettle, h]

theorem run_oneRequest (es : List Event) (w : World)
    (hui : ∀ e ∈ es, e.fromUi = true) (h : OneRequest w) : OneRequest (run es w) := by
  induction es generalizing w with
  | nil => simpa [run] using h
  | cons e es ih =>
    have h1 := step_oneRequest e w (hui e (by simp)) h
    have h2 := ih (step e w) (fun x hx => hui x (by simp [hx])) h1
    simpa only [run, List.foldl_cons] using h2

/-! ## The claims -/

/-- C1: when a request settles with a body `d` whose `status` can be read and
is not `"Failed"`, the history becomes `d` followed by the earlier history:
one record longer, `d` at index 0, every earlier record one index further.
Two such calls in a row from an empty history leave `[second, first]`. -/
theorem C1_success_prepends (s : AppState) (f : File) (d st : JsVal)
    (hfile : s.file = some f)
    (hst : d.getProp "status" = some st) (hok : st.strictEqStr "Failed" = false) :
    (handleUploadSettle (.response d) s).history = d :: s.history ∧
    (handleUpload (.response d) s).history = d :: s.history ∧
    (handleUpload (.response d) s).history.length = s.history.length + 1 ∧
    (handleUpload (.response d) s).history[0]? = some d ∧
    (∀ i, (handleUpload (.response d) s).history[i + 1]? = s.history[i]?) ∧
    (∀ d2 st2, d2.getProp "status" = some st2 → st2.strictEqStr "Failed" = false →
      s.history = [] →
      (handleUpload (.response d2) (handleUpload (.response d) s)).history = [d2, d]) := by
  have hcall : (handleUpload (.response d) s).history = d :: s.history := by
    simp [handleUpload, start_of_file s f hfile, settle_accept _ _ _ hst hok]
  have hkeep : (handleUpload (.response d) s).file = some f := by
    simp [handleUpload, start_of_file s f hfile, settle_accept _ _ _ hst hok, hfile]
  refine ⟨by simp [settle_accept _ _ _ hst hok], hcall, by simp [hcall], by simp [hcall],
    fun i => by simp [hcall], ?_⟩
  intro d2 st2 hst2 hok2 hempty
  rw [handleUpload_of_file _ _ f hkeep, settle_accept _ _ _ hst2 hok2]
  simp [hcall, hempty]

/-- C1 at the two sample records, starting from the state with a chosen file
and an empty history. -/
theorem C1_success_prepends_witness :
    readyState.file = some sampleFile ∧
    recordABC.getProp "status" = some (.str "OK") ∧
    (JsVal.str "OK").strictEqStr "Failed" = false ∧
    (handleUpload (.response recordXYZ) (handleUpload (.response recordABC) readyState)).history
      = [recordXYZ, recordABC] :=
  ⟨rfl, rfl, rfl,
    (C1_success_prepends readyState sampleFile recordABC (.str "OK") rfl rfl rfl).2.2.2.2.2
      recordXYZ (.str "OK") rfl rfl rfl⟩

/-- C3: with a file chosen, a response body whose `status` is `"Failed"`
sets the error message to the no-plate message and leaves the history, the
latest result and the active tab as they were, whatever else the body
carries; the same holds for the settlement alone, in whatever state it
arrives. -/
theorem C3_failed_status (s : AppState) (f : File) (d : JsVal)
    (hfile : s.file = some f) (hst : d.getProp "status" = some (.str "Failed")) :
    (handleUpload (.response d) s).error = some noPlateMessage ∧
    (handleUpload (.response d) s).history = s.history ∧
    (handleUpload (.response d) s).result = s.result ∧
    (handleUpload (.response d) s).activeTab = s.activeTab ∧
    (∀ t : AppState,
      (handleUploadSettle (.response d) t).error = some noPlateMessage ∧
      (handleUploadSettle (.response d) t).history = t.history ∧
      (handleUploadSettle (.response d) t).result = t.result ∧
      (handleUploadSettle (.response d) t).activeTab = t.activeTab) := by
  have hbad : (JsVal.str "Failed").strictEqStr "Failed" = true := rfl
  refine ⟨?_, ?_, ?_, ?_, fun t => ?_⟩ <;>
    simp [handleUpload, start_of_file s f hfile, settle_failed _ _ _ hst hbad]

/-- C3 at the body `{status: "Failed"}` after one successful detection. -/
theorem C3_failed_status_witness :
    (handleUpload (.response recordABC) readyState).file = some sampleFile ∧
    failedBody.getProp "status" = some (.str "Failed") ∧
    (handleUpload (.response failedBody) (handleUpload (.response recordABC) readyState)).error
      = some noPlateMessage ∧
    (handleUpload (.response failedBody) (handleUpload (.response recordABC) readyState)).history
      = [recordABC] :=
  ⟨rfl, rfl,
    (C3_failed_status (handleUpload (.response recordABC) readyState) sampleFile failedBody
      rfl rfl).1,
    (C3_failed_status (handleUpload (.response recordABC) readyState) sampleFile failedBody
      rfl rfl).2.1⟩

/-- C4: with a file chosen, a request that throws sets an error message
different from the no-plate message, leaves the history, the latest result
and the active tab as they were, and ends with `loading = false` and the
submit button enabled. -/
theorem C4_network_failure (s : AppState) (f : File) (hfile : s.file = some f) :
    (handleUpload .rejected s).error = some serverErrorMessage ∧
    serverErrorMessage ≠ noPlateMessage ∧
    (handleUpload .rejected s).history = s.history ∧
    (handleUpload .rejected s).result = s.result ∧
    (handleUpload .rejected s).activeTab = s.activeTab ∧
    (handleUpload .rejected s).loading = false ∧
    submitDisabled (handleUpload .rejected s) = false := by
  refine ⟨?_, by decide, ?_, ?_, ?_, ?_, ?_⟩ <;>
    simp [handleUpload, start_of_file s f hfile, settle_rejected, submitDisabled, hfile]

/-- C4 at the state with a chosen file. -/
theorem C4_network_failure_witness :
    readyState.file = some sampleFile ∧
    (handleUpload .rejected readyState).error = some "Server error. Is the backend running?" ∧
    submitDisabled (handleUpload .rejected readyState) = false :=
  ⟨rfl, (C4_network_failure readyState sampleFile rfl).1,
    (C4_network_failure readyState sampleFile rfl).2.2.2.2.2.2⟩

/-- C5, as stated, fails: the body `{}` has none of `status`,
`plate_number`, `confidence`, `timestamp`, `preview_image`, yet no error is
set, the body is stored as the latest result and in the history, and the view
moves to the results tab. -/
theorem C5_counterexample :
    readyState.file = some sampleFile ∧
    readyState.history = [] ∧
    readyState.activeTab = .upload ∧
    (handleUpload (.response (.obj [])) readyState).error = none ∧
    (handleUpload (.response (.obj [])) readyState).history = [.obj []] ∧
    (handleUpload (.response (.obj [])) readyState).result = .obj [] ∧
    (handleUpload (.response (.obj [])) readyState).activeTab = .results :=
  ⟨rfl, rfl, rfl, rfl, rfl, rfl, rfl⟩

/-- C5, amended: a body is rejected as a service error exactly when reading
its `status` throws, that is for a `null` or `undefined` body: then the server
error message is set and the history, the latest result and the active tab
are left alone.  Every other body whose `status` is not `"Failed"` is accepted
as a detection, whatever fields it lacks. -/
theorem C5_unreadable_body (s : AppState) (f : File) (d : JsVal)
    (hfile : s.file = some f) (hthrow : d = .null ∨ d = .undefined) :
    (handleUpload (.response d) s).error = some serverErrorMessage ∧
    (handleUpload (.response d) s).history = s.history ∧
    (handleUpload (.response d) s).result = s.result ∧
    (handleUpload (.response d) s).activeTab = s.activeTab ∧
    (handleUpload (.response d) s).loading = false ∧
    (∀ d2 st, d2.getProp "status" = some st → st.strictEqStr "Failed" = false →
      (handleUpload (.response d2) s).error = none ∧
      (handleUpload (.response d2) s).result = d2 ∧
      (handleUpload (.response d2) s).history = d2 :: s.history) := by
  have hst : d.getProp "status" = none := (getProp_none_iff d "status").2 hthrow
  rw [handleUpload_of_file _ s f hfile, settle_throw _ _ hst]
  refine ⟨rfl, rfl, rfl, rfl, rfl, ?_⟩
  intro d2 st hst2 hok2
  rw [handleUpload_of_file _ s f hfile, settle_accept _ _ _ hst2 hok2]
  exact ⟨rfl, rfl, rfl⟩

/-- C5 amended, at the body `null`. -/
theorem C5_unreadable_body_witness :
    readyState.file = some sampleFile ∧
    (handleUpload (.response .null) readyState).error = some serverErrorMessage ∧
    (handleUpload (.response .null) readyState).history = [] :=
  ⟨rfl, (C5_unreadable_body readyState sampleFile .null rfl (Or.inl rfl)).1,
    (C5_unreadable_body readyState sampleFile .null rfl (Or.inl rfl)).2.1⟩

/-- C6: whatever tab is active when the request settles, a body `d` whose
`status` can be read and is not `"Failed"` ends the call with the results tab
active, `d` in the latest-result slot and no error message; a call during
which nothing else happens also leaves `d` at the head of the history. -/
theorem C6_success_shows_result (s : AppState) (f : File) (d st : JsVal) (tab : Tab)
    (hfile : s.file = some f)
    (hst : d.getProp "status" = some st) (hok : st.strictEqStr "Failed" = false) :
    (∃ s1, handleUploadStart s = some s1 ∧
      (handleUploadSettle (.response d) (setActiveTab tab s1)).activeTab = .results ∧
      (handleUploadSettle (.response d) (setActiveTab tab s1)).result = d ∧
      (handleUploadSettle (.response d) (setActiveTab tab s1)).error = none) ∧
    (handleUpload (.response d) (setActiveTab tab s)).activeTab = .results ∧
    (handleUpload (.response d) s).activeTab = .results ∧
    (handleUpload (.response d) s).result = d ∧
    (handleUpload (.response d) s).error = none ∧
    (handleUpload (.response d) s).history = d :: s.history := by
  refine ⟨⟨_, start_of_file s f hfile, ?_, ?_, ?_⟩, ?_, ?_, ?_, ?_, ?_⟩
  · rw [settle_accept _ _ _ hst hok]
  · rw [settle_accept _ _ _ hst hok]
  · rw [settle_accept _ _ _ hst hok]; rfl
  · have hf : (setActiveTab tab s).file = some f := hfile
    rw [handleUpload_of_file _ _ f hf, settle_accept _ _ _ hst hok]
  all_goals rw [handleUpload_of_file _ s f hfile, settle_accept _ _ _ hst hok]

/-- C6 at the scenario of the specification: the sample body from the state
reached by choosing a file in the freshly mounted component. -/
theorem C6_success_shows_result_witness :
    readyState.file = some sampleFile ∧
    recordABC.getProp "status" = some (.str "OK") ∧
    (handleUpload (.response recordABC) readyState).activeTab = .results ∧
    (handleUpload (.response recordABC) readyState).result.getProp "plate_number"
      = some (.str "ABC123") ∧
    (handleUpload (.response recordABC) readyState).error = none ∧
    (handleUpload (.response recordABC) readyState).history = [recordABC] :=
  ⟨rfl, rfl,
    (C6_success_shows_result readyState sampleFile recordABC (.str "OK") .dashboard
      rfl rfl rfl).2.2.1,
    rfl,
    (C6_success_shows_result readyState sampleFile recordABC (.str "OK") .dashboard
      rfl rfl rfl).2.2.2.2.1,
    (C6_success_shows_result readyState sampleFile recordABC (.str "OK") .dashboard
      rfl rfl rfl).2.2.2.2.2⟩

/-- C7: from a state with a file chosen and no request in flight, and for
every way the request settles, `handleUpload` first reaches a state with
`loading = true` and ends with `loading = false` in exactly one of the two
terminal request states: succeeded (the body in the result slot, no error) or
failed (an error message set). -/
theorem C7_one_terminal_state (s : AppState) (f : File) (o : Outcome)
    (hfile : s.file = some f) (hidle : s.loading = false) :
    requestState s ≠ .inFlight ∧
    ∃ s1, handleUploadStart s = some s1 ∧
      s1.loading = true ∧ requestState s1 = .inFlight ∧
      handleUpload o s = handleUploadSettle o s1 ∧
      (handleUpload o s).loading = false ∧
      requestState (handleUpload o s) ≠ .inFlight ∧
      ((requestState (handleUpload o s) = .succeeded ∧
          (handleUpload o s).error = none ∧
          ∃ d, o = .response d ∧ (handleUpload o s).result = d) ∨
        (requestState (handleUpload o s) = .failed ∧
          (handleUpload o s).error.isSome = true)) := by
  have hstart : requestState s ≠ .inFlight := by
    unfold requestState
    rw [hidle]
    cases s.error.isSome <;> cases s.result.isNull <;> simp
  refine ⟨hstart, _, start_of_file s f hfile, rfl, by simp [requestState],
    handleUpload_of_file o s f hfile, ?_⟩
  rw [handleUpload_of_file o s f hfile]
  cases o with
  | rejected =>
    rw [settle_rejected]
    exact ⟨rfl, by simp [requestState], Or.inr ⟨by simp [requestState], rfl⟩⟩
  | response d =>
    cases hst : d.getProp "status" with
    | none =>
      rw [settle_throw _ _ hst]
      exact ⟨rfl, by simp [requestState], Or.inr ⟨by simp [requestState], rfl⟩⟩
    | some st =>
      cases hok : st.strictEqStr "Failed" with
      | true =>
        rw [settle_failed _ _ _ hst hok]
        exact ⟨rfl, by simp [requestState], Or.inr ⟨by simp [requestState], rfl⟩⟩
      | false =>
        rw [settle_accept _ _ _ hst hok]
        have hnn : d.isNull = false := getProp_some_not_null d st "status" hst
        exact ⟨rfl, by simp [requestState, hnn], Or.inl ⟨by simp [requestState, hnn], rfl, d, rfl, rfl⟩⟩

/-- C7 at a request that times out. -/
theorem C7_one_terminal_state_witness :
    readyState.file = some sampleFile ∧ readyState.loading = false ∧
    requestState readyState ≠ .inFlight ∧
    ∃ s1, handleUploadStart readyState = some s1 ∧
      s1.loading = true ∧ requestState s1 = .inFlight ∧
      handleUpload .rejected readyState = handleUploadSettle .rejected s1 ∧
      (handleUpload .rejected readyState).loading = false ∧
      requestState (handleUpload .rejected readyState) ≠ .inFlight ∧
      ((requestState (handleUpload .rejected readyState) = .succeeded ∧
          (handleUpload .rejected readyState).error = none ∧
          ∃ d, Outcome.rejected = .response d ∧ (handleUpload .rejected readyState).result = d) ∨
        (requestState (handleUpload .rejected readyState) = .failed ∧
          (handleUpload .rejected readyState).error.isSome = true)) :=
  ⟨rfl, rfl, C7_one_terminal_state readyState sampleFile .rejected rfl rfl⟩

/-- C9, as stated, fails: choosing another file while a request is
outstanding leaves `loading` set, so the request state is in flight, not
idle. -/
theorem C9_counterexample :
    busyWorld.app.loading = true ∧
    (handleFileSelect (some { name := "van.jpg" }) "blob:van" busyWorld.app).loading = true ∧
    requestState (handleFileSelect (some { name := "van.jpg" }) "blob:van" busyWorld.app)
      = .inFlight ∧
    requestState (handleFileSelect (some { name := "van.jpg" }) "blob:van" busyWorld.app)
      ≠ .idle := by
  decide

/-- C9, amended: `handleFileSelect` with a chosen file sets the selected file
and its preview, clears the latest result and the error message, and leaves
the history, the active tab and `loading` as they were, so the request state
is idle afterwards when no request was in flight; with no file chosen it
changes nothing. -/
theorem C9_file_select_frame (s : AppState) (f : File) (url : String) :
    (handleFileSelect (some f) url s).file = some f ∧
    (handleFileSelect (some f) url s).preview = some url ∧
    (handleFileSelect (some f) url s).result = .null ∧
    (handleFileSelect (some f) url s).error = none ∧
    (handleFileSelect (some f) url s).history = s.history ∧
    (handleFileSelect (some f) url s).activeTab = s.activeTab ∧
    (handleFileSelect (some f) url s).loading = s.loading ∧
    (s.loading = false → requestState (handleFileSelect (some f) url s) = .idle) ∧
    handleFileSelect none url s = s := by
  refine ⟨rfl, rfl, rfl, rfl, rfl, rfl, rfl, ?_, rfl⟩
  intro h
  simp [requestState, handleFileSelect, h, JsVal.isNull]

/-- C9 amended, at a new selection after a failed request. -/
theorem C9_file_select_frame_witness :
    (handleUpload .rejected readyState).loading = false ∧
    requestState (handleUpload .rejected readyState) = .failed ∧
    requestState (handleFileSelect (some sampleFile) "blob:car2" (handleUpload .rejected readyState))
      = .idle :=
  ⟨rfl, by decide,
    (C9_file_select_frame (handleUpload .rejected readyState) sampleFile "blob:car2").2.2.2.2.2.2.2.1
      rfl⟩

/-- C10: in every state reached from the initial one by any sequence of
file selections, navigations, submit clicks, direct `handleUpload` calls and
settlements, a non-null latest result is the first record of a non-empty
history; and every event, in any state, keeps the old history as the tail of
the new one, so no record is removed or reordered. -/
theorem C10_latest_heads_history (es : List Event) (e : Event) (w : World) :
    ((run es World.init).app.result.isNull = false →
      (run es World.init).app.history ≠ [] ∧
      (run es World.init).app.history.head? = some (run es World.init).app.result) ∧
    w.app.history <:+ (step e w).app.history ∧
    w.app.history <:+ (run es w).app.history := by
  refine ⟨fun hnn => ?_, step_history_suffix e w, run_history_suffix es w⟩
  have hinit : LatestHeadsHistory World.init.app := by
    intro h
    simp [World.init, AppState.init, JsVal.isNull] at h
  have hhead := run_latest es World.init hinit hnn
  refine ⟨?_, hhead⟩
  intro hnil
  rw [hnil] at hhead
  simp at hhead

/-- C10 after two successful detections with a new selection in between. -/
theorem C10_latest_heads_history_witness :
    (run [.fileSelect (some sampleFile) "blob:car", .clickSubmit,
          .settle (.response recordABC), .fileSelect (some sampleFile) "blob:car2",
          .navigate .upload, .clickSubmit, .settle (.response recordXYZ)]
        World.init).app.result.isNull = false ∧
    (run [.fileSelect (some sampleFile) "blob:car", .clickSubmit,
          .settle (.response recordABC), .fileSelect (some sampleFile) "blob:car2",
          .navigate .upload, .clickSubmit, .settle (.response recordXYZ)]
        World.init).app.history.head? = some recordXYZ :=
  ⟨rfl,
    ((C10_latest_heads_history
      [.fileSelect (some sampleFile) "blob:car", .clickSubmit,
        .settle (.response recordABC), .fileSelect (some sampleFile) "blob:car2",
        .navigate .upload, .clickSubmit, .settle (.response recordXYZ)]
      .clickSubmit World.init).1 rfl).2⟩

/-- C2: submitting again while a request is in flight is a no-op.  The only
call site of `handleUpload` is the `onClick` of the submit button, which is
disabled while `loading` is set (or no file is chosen); a click then is
rejected: the whole state, and so the history length and the latest result,
stays as it was, no second request is issued, and whatever way the
outstanding request settles afterwards, the state is the one reached without
the rejected click.  So in every state reached from the initial one by file
selections, navigations, submit clicks and settlements at most one request
is in flight, and one is exactly while `loading` is set. -/
theorem C2_resubmit_is_noop (es : List Event) (hui : ∀ e ∈ es, e.fromUi = true) :
    (∀ w : World, w.app.loading = true →
      step .clickSubmit w = w ∧
      (step .clickSubmit w).inFlight = w.inFlight ∧
      (step .clickSubmit w).app.history.length = w.app.history.length ∧
      (step .clickSubmit w).app.result = w.app.result ∧
      (∀ o : Outcome, step (.settle o) (step .clickSubmit w) = step (.settle o) w)) ∧
    (∀ w : World, submitDisabled w.app = true → step .clickSubmit w = w) ∧
    ((run es World.init).app.loading = true →
      run (es ++ [.clickSubmit]) World.init = run es World.init) ∧
    (run es World.init).inFlight ≤ 1 ∧
    ((run es World.init).inFlight = 1 ↔ (run es World.init).app.loading = true) := by
  have hone : OneRequest (run es World.init) := run_oneRequest es World.init hui rfl
  unfold OneRequest at hone
  have hnoop : ∀ w : World, w.app.loading = true → step .clickSubmit w = w := by
    intro w hl
    simp [step, clickSubmit, submitDisabled, hl]
  refine ⟨fun w hl => ?_, fun w hw => by simp [step, clickSubmit, hw], fun hl => ?_, ?_, ?_⟩
  · rw [hnoop w hl]
    exact ⟨rfl, rfl, rfl, rfl, fun _ => rfl⟩
  · simp only [run, List.foldl_append, List.foldl_cons, List.foldl_nil]
    exact hnoop _ hl
  · rw [hone]; split <;> simp
  · rw [hone]; cases (run es World.init).app.loading <;> simp

/-- C2 at a second click while the request for the sample file is
outstanding: the click changes nothing, and after the request settles with the
sample record the history holds that one record. -/
theorem C2_resubmit_is_noop_witness :
    (∀ e ∈ [Event.fileSelect (some sampleFile) "blob:car", Event.clickSubmit],
      e.fromUi = true) ∧
    busyWorld.app.loading = true ∧
    busyWorld.app.file = some sampleFile ∧
    busyWorld.inFlight = 1 ∧
    step .clickSubmit busyWorld = busyWorld ∧
    (run [.clickSubmit, .settle (.response recordABC), .settle (.response recordXYZ)]
      busyWorld).app.history = [recordABC] ∧
    (run [.fileSelect (some sampleFile) "blob:car", .clickSubmit] World.init).inFlight ≤ 1 :=
  ⟨by simp [Event.fromUi], rfl, rfl, rfl,
    ((C2_resubmit_is_noop [.fileSelect (some sampleFile) "blob:car", .clickSubmit]
      (by simp [Event.fromUi])).1 busyWorld rfl).1,
    rfl,
    (C2_resubmit_is_noop [.fileSelect (some sampleFile) "blob:car", .clickSubmit]
      (by simp [Event.fromUi])).2.2.2.1⟩

/-- C8, as stated, fails: for the confidence `0.0015` (a double in `[0,1]`)
both the card and the table row show `0.1%`, while the exact value of
`c × 100` lies within `0.05` of `0.2` and further than `0.05` from `0.1`: the
product computed in double precision is the double `0.15`, which is below
`0.15`. -/
theorem C8_counterexample :
    ofDecimal 15 10000 = some lowConfidence ∧
    0 ≤ lowConfidence.toRat ∧ lowConfidence.toRat ≤ 1 ∧
    cardConfidence (.obj [("confidence", .num lowConfidence)]) = some "0.1%" ∧
    rowConfidence (.obj [("confidence", .num lowConfidence)]) = some "0.1%" ∧
    |lowConfidence.toRat * 100 - 2 / 10| < 1 / 20 ∧
    1 / 20 < |lowConfidence.toRat * 100 - 1 / 10| := by
  have hv : lowConfidence.toRat = 6917529027641082 / 2 ^ 62 :=
    Num.toRat_of_neg_exp 6917529027641082 62
  refine ⟨by decide, ?_, ?_, by decide, by decide, ?_, ?_⟩
  · rw [hv]; positivity
  · rw [hv]; norm_num
  · rw [hv, abs_lt]; constructor <;> norm_num
  · rw [hv, lt_abs]; left; norm_num

/-- C8, amended: for a numeric confidence `c` in `[0,1]` the card and the
history row show the same text: the double-precision product `p = c * 100`
(within `2^-46` of the exact product) rounded to the nearest tenth `t / 10`,
a tie going upward, written as the digits of `t / 10`, a point, the one digit
`t % 10` and `%`, with `t` at most `1000`.  The literals `0.947`, `1.0` and
`0.0` are shown as `94.7%`, `100.0%` and `0.0%`. -/
theorem C8_confidence_display (r : JsVal) (c : Num)
    (hconf : r.getProp "confidence" = some (.num c))
    (h0 : 0 ≤ c.toRat) (hle : c.toRat ≤ 1) :
    (∃ (p : Num) (t : Nat), jsMul c hundred = some p ∧
      |p.toRat - c.toRat * 100| ≤ 1 / 2 ^ 46 ∧
      (t : ℚ) / 10 - 1 / 20 ≤ p.toRat ∧ p.toRat < (t : ℚ) / 10 + 1 / 20 ∧ t ≤ 1000 ∧
      cardConfidence r = some (toString (t / 10) ++ "." ++ toString (t % 10) ++ "%") ∧
      rowConfidence r = some (toString (t / 10) ++ "." ++ toString (t % 10) ++ "%")) ∧
    ((ofDecimal 947 1000).bind fun x => cardConfidence (.obj [("confidence", .num x)]))
      = some "94.7%" ∧
    ((ofDecimal 947 1000).bind fun x => rowConfidence (.obj [("confidence", .num x)]))
      = some "94.7%" ∧
    ((ofDecimal 1 1).bind fun x => cardConfidence (.obj [("confidence", .num x)]))
      = some "100.0%" ∧
    ((ofDecimal 1 1).bind fun x => rowConfidence (.obj [("confidence", .num x)]))
      = some "100.0%" ∧
    ((ofDecimal 0 1).bind fun x => cardConfidence (.obj [("confidence", .num x)]))
      = some "0.0%" ∧
    ((ofDecimal 0 1).bind fun x => rowConfidence (.obj [("confidence", .num x)]))
      = some "0.0%" := by
  refine ⟨?_, by decide, by decide, by decide, by decide, by decide, by decide⟩
  obtain ⟨p, t, hmul, herr, hlo, hhi, ht, hfix⟩ := percent_of_unit c h0 hle
  exact ⟨p, t, hmul, herr, hlo, hhi, ht, by simp [cardConfidence, hconf, hmul, hfix],
    by simp [rowConfidence, hconf, hmul, hfix]⟩

/-- C8 amended, at the sample record, whose confidence `0.88` is shown as
`88.0%`. -/
theorem C8_confidence_display_witness :
    recordABC.getProp "confidence" = some (.num confidence88) ∧
    0 ≤ confidence88.toRat ∧ confidence88.toRat ≤ 1 ∧
    cardConfidence recordABC = some "88.0%" ∧
    ∃ (p : Num) (t : Nat), jsMul confidence88 hundred = some p ∧
      |p.toRat - confidence88.toRat * 100| ≤ 1 / 2 ^ 46 ∧
      (t : ℚ) / 10 - 1 / 20 ≤ p.toRat ∧ p.toRat < (t : ℚ) / 10 + 1 / 20 ∧ t ≤ 1000 ∧
      cardConfidence recordABC = some (toString (t / 10) ++ "." ++ toString (t % 10) ++ "%") ∧
      rowConfidence recordABC = some (toString (t / 10) ++ "." ++ toString (t % 10) ++ "%") :=
  have hv : confidence88.toRat = 7926335344172073 / 2 ^ 53 :=
    Num.toRat_of_neg_exp 7926335344172073 53
  have h0 : 0 ≤ confidence88.toRat := by rw [hv]; positivity
  have h1 : confidence88.toRat ≤ 1 := by rw [hv]; norm_num
  ⟨rfl, h0, h1, by decide, (C8_confidence_display recordABC confidence88 rfl h0 h1).1⟩

end EcoScout
